import Mathlib

/-! Shallow embedding of the attendance-marking core of the QRScanner
repository (`attendance_app/app.py` and `attendance_app/utils.py`),
together with theorems settling the specification's claims about it. -/

namespace QRScanner

/-- Cell values a roster cell can hold in this embedding: strings,
booleans, integers, Python `None`, and the float `nan` pandas uses to
fill unset cells. -/
inductive Val where
  | str (s : String)
  | bool (b : Bool)
  | int (i : Int)
  | vnone
  | nan
  deriving DecidableEq, Repr

/-- Python's `str(...)` coercion as pandas `Series.astype(str)` applies it
elementwise: `str(True) = "True"`, `str(None) = "None"` and
`str(float("nan")) = "nan"`. -/
def pyStr : Val → String
  | .str s => s
  | .bool true => "True"
  | .bool false => "False"
  | .int i => toString i
  | .vnone => "None"
  | .nan => "nan"

/-- A roster record: a total assignment of cell values to column names.
Only the columns listed in the frame's `cols` are meaningful. -/
def Row : Type := String → Val

/-- A pandas DataFrame: the ordered list of column names plus one row per
record. -/
structure DataFrame where
  cols : List String
  rows : List Row

/-- Functional update of one cell of a row. -/
def setCol (r : Row) (c : String) (v : Val) : Row :=
  fun x => if x = c then v else r x

/-- Cell of record `i` at column `x` (`none` when `i` is out of range). -/
def cellAt (df : DataFrame) (i : Nat) (x : String) : Option Val :=
  df.rows[i]?.map fun r => r x

/-- Timestamp column paired with an attendance column (`c + "_ts"`,
app.py lines 53 and 94). -/
def tsOf (c : String) : String := c ++ "_ts"

/-- String seen by the matcher for column `c` of row `r`: the embedding of
`df.get(c, pd.Series([None]*len(df))).astype(str).fillna("")` at one row
(app.py lines 79-85).  When the column is absent, `df.get` supplies a
Series of `None`, and `astype(str)` turns each `None` into the string
`"None"`; the trailing `.fillna("")` is a no-op in every case, because
after `astype(str)` the series holds the strings `"None"` / `"nan"`
rather than missing values. -/
def cellStr (cols : List String) (r : Row) (c : String) : String :=
  if c ∈ cols then pyStr (r c) else pyStr Val.vnone

/-- One entry of the boolean mask of app.py lines 79-85: the identifier is
compared against the string-coerced `Srn`, `Email` and `Name` cells. -/
def rowMatch (cols : List String) (r : Row) (identifier : String) : Bool :=
  (cellStr cols r "Srn" == identifier) || (cellStr cols r "Email" == identifier)
    || (cellStr cols r "Name" == identifier)

/-- The mask Series of app.py lines 79-85, one boolean per record. -/
def maskOf (df : DataFrame) (identifier : String) : List Bool :=
  df.rows.map fun r => rowMatch df.cols r identifier

/-- Whole-column assignment `df[c] = v`: appends the column when missing
and gives every record the value `v` (app.py lines 50-51, 54-55, 91-92;
in the source it is only reached when `c` is not yet a column). -/
def assignCol (df : DataFrame) (c : String) (v : Val) : DataFrame :=
  ⟨if c ∈ df.cols then df.cols else df.cols ++ [c],
    df.rows.map fun r => setCol r c v⟩

/-- Masked assignment `df.loc[mask, c] = v` (app.py lines 93 and 95):
writes `v` into column `c` of the records selected by the mask; when `c`
is not yet a column, pandas enlarges the frame and fills the unselected
records of the new column with `nan`. -/
def locSet (df : DataFrame) (m : List Bool) (c : String) (v : Val) : DataFrame :=
  if c ∈ df.cols then
    ⟨df.cols, (m.zip df.rows).map fun p => if p.1 then setCol p.2 c v else p.2⟩
  else
    ⟨df.cols ++ [c],
      (m.zip df.rows).map fun p => if p.1 then setCol p.2 c v else setCol p.2 c .nan⟩

/-- One iteration of the marking loop of app.py lines 90-95: create the
column if missing, set it `True` on the masked records, and write the
timestamp column alongside. -/
def markStep (m : List Bool) (now : String) (df : DataFrame) (c : String) : DataFrame :=
  let df1 := if c ∈ df.cols then df else assignCol df c (.bool false)
  let df2 := locSet df1 m c (.bool true)
  locSet df2 m (tsOf c) (.str now)

/-- The marking loop of app.py lines 90-95 over the requested columns, in
list order. -/
def markCols (df : DataFrame) (m : List Bool) (cats : List String) (now : String) :
    DataFrame :=
  cats.foldl (markStep m now) df

/-- A wall-clock instant, standing for a value read by `datetime.now()`. -/
structure DateTime where
  year : Nat
  month : Nat
  day : Nat
  hour : Nat
  minute : Nat
  second : Nat
  microsecond : Nat

/-- Zero-padding as in CPython's datetime formatting (`%04d` etc.). -/
def padNum (w n : Nat) : String :=
  String.mk (List.replicate (w - (toString n).length) '0') ++ toString n

/-- Python's `datetime.isoformat()`: `YYYY-MM-DDTHH:MM:SS`, followed by
`.ffffff` when the microsecond field is nonzero. -/
def isoformat (t : DateTime) : String :=
  padNum 4 t.year ++ "-" ++ padNum 2 t.month ++ "-" ++ padNum 2 t.day ++ "T"
    ++ padNum 2 t.hour ++ ":" ++ padNum 2 t.minute ++ ":" ++ padNum 2 t.second
    ++ (if t.microsecond = 0 then "" else "." ++ padNum 6 t.microsecond)

/-- Observable outcome of `mark_attendance`: the roster after the call,
the returned `(ok, message)` pair, and whether `df.to_csv` was invoked. -/
structure MarkResult where
  df : DataFrame
  ok : Bool
  msg : String
  wroteAttempt : Bool

/-- `mark_attendance` (app.py lines 77-105).  `now` stands for the clock
read by `datetime.now()` during the call, and `writeResult` for the
outcome of `df.to_csv(source_path, index=False)` (`.error e` when that
call raises an exception rendered as `e`).  `if source_path:` is false
both for `None` and for the empty string. -/
def mark_attendance (df : DataFrame) (identifier : String) (cats : List String)
    (source_path : Option String) (now : DateTime)
    (writeResult : Except String Unit) : MarkResult :=
  let m := maskOf df identifier
  if ¬ m.any (fun b => b) then
    ⟨df, false, "No matching row found for id \x27" ++ identifier ++ "\x27", false⟩
  else
    let df2 := markCols df m cats (isoformat now)
    match source_path with
    | some p =>
      if p = "" then ⟨df2, true, "Marked", false⟩
      else
        match writeResult with
        | .ok _ => ⟨df2, true, "Marked", true⟩
        | .error e =>
          ⟨df2, true, "Marked (but failed to write to source CSV: " ++ e ++ ")", true⟩
    | none => ⟨df2, true, "Marked", false⟩

/-- `DEFAULT_COLUMNS` (app.py line 27). -/
def DEFAULT_COLUMNS : List String := ["Dinner", "Pizza", "Breakfast", "MRD"]

/-- Body of `ensure_attendance_columns` for one attendance column
(app.py lines 49-55): create the flag column as `False` when missing,
then create its timestamp column as `""` when missing. -/
def ensureStep (df : DataFrame) (c : String) : DataFrame :=
  let df1 := if c ∈ df.cols then df else assignCol df c (.bool false)
  if tsOf c ∈ df1.cols then df1 else assignCol df1 (tsOf c) (.str "")

/-- `ensure_attendance_columns` (app.py lines 48-56). -/
def ensure_attendance_columns (df : DataFrame) : DataFrame :=
  DEFAULT_COLUMNS.foldl ensureStep df

/-- Matching rule as claim C1 words it: an absent lookup column is
treated as an empty-string column, so an absent column's cell compares
equal to the empty-string identifier. -/
def claimMatchEmptyDefault (cols : List String) (r : Row) (identifier : String) : Bool :=
  ((if "Srn" ∈ cols then pyStr (r "Srn") else "") == identifier)
    || ((if "Email" ∈ cols then pyStr (r "Email") else "") == identifier)
    || ((if "Name" ∈ cols then pyStr (r "Name") else "") == identifier)

/-- Matching rule as amended: an absent lookup column behaves as a column
of `None` cells whose string coercion is `"None"` (the `.fillna("")`
runs after `astype(str)` and never fires), so an absent column's cell
compares equal to the identifier `"None"`, not to `""`. -/
def claimMatchNoneDefault (cols : List String) (r : Row) (identifier : String) : Bool :=
  ((if "Srn" ∈ cols then pyStr (r "Srn") else "None") == identifier)
    || ((if "Email" ∈ cols then pyStr (r "Email") else "None") == identifier)
    || ((if "Name" ∈ cols then pyStr (r "Name") else "None") == identifier)

/-- Record with only a `Name` cell, used as a concrete roster row. -/
def nameRow (s : String) : Row :=
  fun x => if x = "Name" then .str s else .vnone

/-- A concrete clock instant for concrete runs. -/
def sampleTime : DateTime := ⟨2025, 10, 12, 9, 30, 0, 123456⟩

/-- Outcome of a Python call: a returned value, or a raised exception
carrying its rendered message. -/
inductive PyOut (α : Type) where
  | ok (a : α)
  | exn (msg : String)
  deriving DecidableEq, Repr

/-- Environment `decode_qr_from_bytes` runs in for one input: which
decoder libraries import successfully, and what each external call
returns on the given image bytes. -/
structure DecodeEnv where
  /-- `import cv2` succeeded (utils.py lines 67-70). -/
  cv2Avail : Bool
  /-- `cv2.imdecode` produced an image; on undecodable bytes it returns
  `None` without raising (utils.py line 75). -/
  imdecodeSome : Bool
  /-- the `data` result of `detector.detectAndDecode(img)` on a decoded
  image, or the exception it raises (utils.py line 77). -/
  detectOut : PyOut String
  /-- `from pyzbar.pyzbar import decode` succeeded (utils.py lines 84-87). -/
  pyzbarAvail : Bool
  /-- outcome of `Image.open(io.BytesIO(image_bytes)).convert("RGB")`
  (utils.py line 90); raises on bytes PIL cannot identify as an image. -/
  pilOpenOut : PyOut Unit
  /-- data bytes of the symbols pyzbar finds in the opened image
  (utils.py line 91). -/
  symbols : List (List Nat)
  /-- `bytes.decode("utf-8")` on a symbol's data, `none` when it raises
  (utils.py line 96). -/
  utf8Dec : List Nat → Option String

/-- `bytes.decode("latin-1")`: total, one character per byte
(utils.py line 98). -/
def latin1Dec (d : List Nat) : String :=
  String.mk (d.map Char.ofNat)

/-- `decode_qr_from_bytes` (utils.py lines 62-101).  The OpenCV branch is
wrapped in `try/except` (so `detectAndDecode` on a `None` image, or any
other cv2 failure, falls through to the fallback), and an empty `data`
string also falls through.  The pyzbar fallback calls `Image.open`
outside any `try`, so its exception propagates to the caller. -/
def decode_qr_from_bytes (env : DecodeEnv) : PyOut (Option String) :=
  let cv2Ret : Option String :=
    if env.cv2Avail then
      match (if env.imdecodeSome then env.detectOut else PyOut.exn "cv2.error") with
      | .ok data => if data = "" then none else some data
      | .exn _ => none
    else none
  match cv2Ret with
  | some data => .ok (some data)
  | none =>
    if env.pyzbarAvail then
      match env.pilOpenOut with
      | .exn e => .exn e
      | .ok _ =>
        match env.symbols with
        | [] => .ok none
        | d :: _ =>
          .ok (some (match env.utf8Dec d with | some s => s | none => latin1Dec d))
    else .ok none

/-- A record for `make_payload` (utils.py line 14): a dict-like mapping
whose present values are strings. -/
def PRecord : Type := String → Option String

/-- Python's `a or b` for an optional string `a`: `a` when truthy
(present and non-empty), else `b`. -/
def orDefault (a : Option String) (b : String) : String :=
  match a with
  | some s => if s = "" then b else s
  | none => b

/-- The `team` field computed by `make_payload` (utils.py line 20). -/
def teamOf (row : PRecord) : String :=
  orDefault (row "Team Name") (orDefault (row "teamName") (orDefault (row "team") ""))

/-- The `name` field computed by `make_payload` (utils.py line 21). -/
def nameOf (row : PRecord) : String :=
  orDefault (row "Name") (orDefault (row "name") "")

/-- Per-character escaping of `json.dumps` with `ensure_ascii=False`:
backslash, the double quote and the control characters below 0x20 are
escaped (five by short escapes, the rest as `\u00xx`); every other
character is emitted unchanged. -/
def escChar (c : Char) : List Char :=
  if c = '"' then ['\\', '"']
  else if c = '\\' then ['\\', '\\']
  else if c = '\x08' then ['\\', 'b']
  else if c = '\x0c' then ['\\', 'f']
  else if c = '\n' then ['\\', 'n']
  else if c = '\r' then ['\\', 'r']
  else if c = '\t' then ['\\', 't']
  else if c.toNat < 32 then
    ['\\', 'u', '0', '0', Nat.digitChar (c.toNat / 16), Nat.digitChar (c.toNat % 16)]
  else [c]

/-- `json.dumps` escaping of a whole string body. -/
def escStr (s : List Char) : List Char :=
  s.foldr (fun c acc => escChar c ++ acc) []

/-- A JSON string literal: the escaped body within double quotes. -/
def jsonStr (s : String) : String :=
  "\"" ++ String.mk (escStr s.data) ++ "\""

/-- `make_payload` (utils.py lines 14-26): the JSON text produced by
`json.dumps(payload, ensure_ascii=False)` for the two-field payload,
with the default separators. -/
def make_payload (row : PRecord) : String :=
  "\x7b\"team\": " ++ jsonStr (teamOf row) ++ ", \"name\": " ++ jsonStr (nameOf row)
    ++ "\x7d"

/-- Hexadecimal digit value, as `json.loads` reads `\uXXXX` escapes. -/
def hexVal (c : Char) : Option Nat :=
  if '0' ≤ c ∧ c ≤ '9' then some (c.toNat - 48)
  else if 'a' ≤ c ∧ c ≤ 'f' then some (c.toNat - 87)
  else if 'A' ≤ c ∧ c ≤ 'F' then some (c.toNat - 55)
  else none

/-- Reads the body of a JSON string literal up to its closing quote,
undoing the escapes; returns the body and the remaining input.  This is
the string scanner of `json.loads` restricted to what it needs here. -/
def scanStr : List Char → Option (List Char × List Char)
  | [] => none
  | c :: rest =>
    if c = '"' then some ([], rest)
    else if c = '\\' then
      match rest with
      | [] => none
      | e :: r2 =>
        if e = '"' then (fun p => ('"' :: p.1, p.2)) <$> scanStr r2
        else if e = '\\' then (fun p => ('\\' :: p.1, p.2)) <$> scanStr r2
        else if e = 'b' then (fun p => ('\x08' :: p.1, p.2)) <$> scanStr r2
        else if e = 'f' then (fun p => ('\x0c' :: p.1, p.2)) <$> scanStr r2
        else if e = 'n' then (fun p => ('\n' :: p.1, p.2)) <$> scanStr r2
        else if e = 'r' then (fun p => ('\r' :: p.1, p.2)) <$> scanStr r2
        else if e = 't' then (fun p => ('\t' :: p.1, p.2)) <$> scanStr r2
        else if e = 'u' then
          match r2 with
          | h1 :: h2 :: h3 :: h4 :: r3 =>
            match hexVal h1, hexVal h2, hexVal h3, hexVal h4 with
            | some a, some b, some c2, some d =>
              (fun p => (Char.ofNat (((a * 16 + b) * 16 + c2) * 16 + d) :: p.1, p.2))
                <$> scanStr r3
            | _, _, _, _ => none
          | _ => none
        else none
    else (fun p => (c :: p.1, p.2)) <$> scanStr rest

/-- Drops an expected literal prefix, or fails. -/
def dropLit : List Char → List Char → Option (List Char)
  | [], l => some l
  | _ :: _, [] => none
  | p :: ps, c :: cs => if c = p then dropLit ps cs else none

/-- Reads a whole JSON string literal: an opening quote, then the body
up to the closing quote. -/
def parseJsonStr (l : List Char) : Option (List Char × List Char) :=
  match l with
  | '"' :: rest => scanStr rest
  | _ => none

/-- Parses exactly the payload shape `make_payload` emits, the way
`json.loads` reads it back: an object with the string fields `team`
then `name`. -/
def parsePayload (s : String) : Option (String × String) :=
  (dropLit ("\x7b\"team\": ".data) s.data).bind fun r1 =>
    (parseJsonStr r1).bind fun p1 =>
      (dropLit (", \"name\": ".data) p1.2).bind fun r3 =>
        (parseJsonStr r3).bind fun p2 =>
          if p2.2 = ("\x7d" : String).data then some (String.mk p1.1, String.mk p2.1)
          else none



theorem setCol_apply (r : Row) (c x : String) (v : Val) :
    setCol r c v x = if x = c then v else r x := rfl

theorem tsOf_data (c : String) : (tsOf c).data = c.data ++ ['_', 't', 's'] := by
  rw [tsOf, String.data_append]

theorem tsOf_inj {a b : String} (h : tsOf a = tsOf b) : a = b := by
  apply String.ext
  have hd := congrArg String.data h
  rw [tsOf_data, tsOf_data] at hd
  exact List.append_cancel_right hd

theorem tsOf_ne_self (c : String) : tsOf c ≠ c := by
  intro h
  have hd := congrArg (fun s => s.data.length) h
  simp [tsOf_data] at hd

theorem ne_tsOf_of_getLast (x : String) (h : x.data.getLast? ≠ some 's') (c : String) :
    x ≠ tsOf c := by
  intro hx
  apply h
  rw [hx, tsOf_data]
  rw [List.getLast?_append]
  rfl

theorem srn_ne_tsOf (c : String) : "Srn" ≠ tsOf c :=
  ne_tsOf_of_getLast _ (by decide) c

theorem email_ne_tsOf (c : String) : "Email" ≠ tsOf c :=
  ne_tsOf_of_getLast _ (by decide) c

theorem name_ne_tsOf (c : String) : "Name" ≠ tsOf c :=
  ne_tsOf_of_getLast _ (by decide) c

theorem maskOf_length (df : DataFrame) (identifier : String) :
    (maskOf df identifier).length = df.rows.length := by
  simp [maskOf]

theorem maskOf_getElem? (df : DataFrame) (identifier : String) (i : Nat) :
    (maskOf df identifier)[i]? = df.rows[i]?.map fun r => rowMatch df.cols r identifier := by
  simp [maskOf, List.getElem?_map]

theorem maskOf_any_iff (df : DataFrame) (identifier : String) :
    (maskOf df identifier).any (fun b => b) = true ↔
      ∃ r ∈ df.rows, rowMatch df.cols r identifier = true := by
  simp [maskOf, List.any_eq_true]



theorem assignCol_cols_mem (df : DataFrame) (c : String) (v : Val) (x : String) :
    x ∈ (assignCol df c v).cols ↔ x ∈ df.cols ∨ x = c := by
  by_cases h : c ∈ df.cols
  · simp only [assignCol, if_pos h]
    exact ⟨Or.inl, fun hx => hx.elim id fun hxc => hxc ▸ h⟩
  · simp [assignCol, h, List.mem_append]

theorem assignCol_rows_getElem? (df : DataFrame) (c : String) (v : Val) (i : Nat) :
    (assignCol df c v).rows[i]? = df.rows[i]?.map fun r => setCol r c v := by
  simp [assignCol, List.getElem?_map]

theorem assignCol_rows_length (df : DataFrame) (c : String) (v : Val) :
    (assignCol df c v).rows.length = df.rows.length := by
  simp [assignCol]

theorem locSet_cols_mem (df : DataFrame) (m : List Bool) (c : String) (v : Val) (x : String) :
    x ∈ (locSet df m c v).cols ↔ x ∈ df.cols ∨ x = c := by
  by_cases h : c ∈ df.cols
  · simp only [locSet, if_pos h]
    exact ⟨Or.inl, fun hx => hx.elim id fun hxc => hxc ▸ h⟩
  · simp [locSet, h, List.mem_append]

theorem locSet_rows_length (df : DataFrame) (m : List Bool) (c : String) (v : Val)
    (hm : m.length = df.rows.length) :
    (locSet df m c v).rows.length = df.rows.length := by
  by_cases h : c ∈ df.cols <;> simp [locSet, h, hm]

theorem locSet_rows_getElem? (df : DataFrame) (m : List Bool) (c : String) (v : Val)
    {i : Nat} {r : Row} {b : Bool}
    (hi : df.rows[i]? = some r) (hb : m[i]? = some b) :
    (locSet df m c v).rows[i]? =
      some (if b then setCol r c v else if c ∈ df.cols then r else setCol r c .nan) := by
  have hz : (m.zip df.rows)[i]? = some (b, r) :=
    List.getElem?_zip_eq_some.mpr ⟨hb, hi⟩
  by_cases h : c ∈ df.cols <;> simp [locSet, h, List.getElem?_map, hz]


theorem markStep_cols_mem (m : List Bool) (now : String) (df : DataFrame) (c x : String) :
    x ∈ (markStep m now df c).cols ↔ x ∈ df.cols ∨ x = c ∨ x = tsOf c := by
  by_cases h : c ∈ df.cols <;>
    simp only [markStep, if_pos, if_neg, h, if_true, if_false, locSet_cols_mem,
      assignCol_cols_mem] <;> tauto

theorem markStep_rows_length (m : List Bool) (now : String) (df : DataFrame) (c : String)
    (hm : m.length = df.rows.length) :
    (markStep m now df c).rows.length = df.rows.length := by
  by_cases h : c ∈ df.cols
  · rw [markStep, if_pos h]
    have h1 : (locSet df m c (Val.bool true)).rows.length = df.rows.length :=
      locSet_rows_length _ _ _ _ hm
    have h2 := locSet_rows_length (locSet df m c (Val.bool true)) m (tsOf c) (Val.str now)
      (by rw [h1]; exact hm)
    rw [h2, h1]
  · rw [markStep, if_neg h]
    have h0 : (assignCol df c (Val.bool false)).rows.length = df.rows.length :=
      assignCol_rows_length _ _ _
    have h1 : (locSet (assignCol df c (Val.bool false)) m c (Val.bool true)).rows.length
        = df.rows.length := by
      rw [locSet_rows_length _ _ _ _ (by rw [h0]; exact hm), h0]
    have h2 := locSet_rows_length (locSet (assignCol df c (Val.bool false)) m c (Val.bool true))
      m (tsOf c) (Val.str now) (by rw [h1]; exact hm)
    rw [h2, h1]

theorem markStep_cell (m : List Bool) (now : String) (df : DataFrame) (c : String)
    {i : Nat} {r : Row} {b : Bool}
    (hi : df.rows[i]? = some r) (hb : m[i]? = some b) (x : String) :
    cellAt (markStep m now df c) i x =
      some (if x = tsOf c then (if b then .str now else if tsOf c ∈ df.cols then r x else .nan)
        else if x = c then (if b then .bool true else if c ∈ df.cols then r x else .bool false)
        else r x) := by
  have hts_ne : tsOf c ≠ c := tsOf_ne_self c
  by_cases h : c ∈ df.cols
  · rw [markStep, if_pos h]
    have h1 := locSet_rows_getElem? df m c (Val.bool true) hi hb
    rw [if_pos h] at h1
    have h2 := locSet_rows_getElem? (locSet df m c (Val.bool true)) m (tsOf c) (Val.str now) h1 hb
    rw [cellAt, h2]
    have hmem2 : (tsOf c ∈ (locSet df m c (Val.bool true)).cols) = (tsOf c ∈ df.cols) := by
      rw [locSet_cols_mem]
      exact propext ⟨fun hh => hh.elim id fun he => absurd he hts_ne, Or.inl⟩
    simp only [hmem2]
    cases b with
    | true => simp [setCol, h]
    | false =>
      by_cases hts : tsOf c ∈ df.cols
      · simp [setCol, hts, h, ite_self]
      · by_cases hx1 : x = tsOf c
        · by_cases hx2 : x = c
          · exact absurd (hx2 ▸ hx1) hts_ne.symm
          · simp [setCol, hts, hx1, h, hts_ne, Ne.symm hts_ne]
        · simp [setCol, hts, hx1, h, ite_self]
  · rw [markStep, if_neg h]
    have hi0 : (assignCol df c (Val.bool false)).rows[i]? = some (setCol r c (Val.bool false)) := by
      rw [assignCol_rows_getElem?, hi]; rfl
    have h1 := locSet_rows_getElem? (assignCol df c (Val.bool false)) m c (Val.bool true) hi0 hb
    rw [if_pos ((assignCol_cols_mem df c (Val.bool false) c).mpr (Or.inr rfl))] at h1
    have h2 := locSet_rows_getElem? (locSet (assignCol df c (Val.bool false)) m c (Val.bool true))
      m (tsOf c) (Val.str now) h1 hb
    rw [cellAt, h2]
    have hmem2 : (tsOf c ∈ (locSet (assignCol df c (Val.bool false)) m c (Val.bool true)).cols)
        = (tsOf c ∈ df.cols) := by
      rw [locSet_cols_mem, assignCol_cols_mem]
      refine propext ⟨fun hh => ?_, fun hh => Or.inl (Or.inl hh)⟩
      rcases hh with (hh | he) | he
      · exact hh
      · exact absurd he hts_ne
      · exact absurd he hts_ne
    simp only [hmem2]
    cases b with
    | true =>
      by_cases hx1 : x = tsOf c
      · simp [setCol, hx1]
      · by_cases hx2 : x = c
        · simp [setCol, hx1, hx2]
        · simp [setCol, hx1, hx2]
    | false =>
      by_cases hx1 : x = tsOf c
      · by_cases hx2 : x = c
        · exact absurd (hx2 ▸ hx1) hts_ne.symm
        · by_cases hts : tsOf c ∈ df.cols <;> simp [setCol, hts, hx1, hx2, h, hts_ne, Ne.symm hts_ne]
      · by_cases hx2 : x = c
        · by_cases hts : tsOf c ∈ df.cols <;> simp [setCol, hts, hx1, hx2, h, hts_ne, Ne.symm hts_ne]
        · by_cases hts : tsOf c ∈ df.cols <;> simp [setCol, hts, hx1, hx2, h, hts_ne, Ne.symm hts_ne]


theorem markCols_nil (df : DataFrame) (m : List Bool) (now : String) :
    markCols df m [] now = df := rfl

theorem markCols_cons (df : DataFrame) (m : List Bool) (c : String) (cs : List String)
    (now : String) :
    markCols df m (c :: cs) now = markCols (markStep m now df c) m cs now := rfl

theorem markStep_cell_other {m : List Bool} {now : String} {df : DataFrame} {c x : String}
    (hm : m.length = df.rows.length) (hx1 : x ≠ c) (hx2 : x ≠ tsOf c) (i : Nat) :
    cellAt (markStep m now df c) i x = cellAt df i x := by
  cases hrow : df.rows[i]? with
  | none =>
    have hlen : df.rows.length ≤ i := List.getElem?_eq_none_iff.mp hrow
    have hnone : (markStep m now df c).rows[i]? = none := by
      rw [List.getElem?_eq_none_iff, markStep_rows_length m now df c hm]; exact hlen
    simp [cellAt, hrow, hnone]
  | some r =>
    have hilt : i < m.length := by
      rw [hm]; exact (List.getElem?_eq_some_iff.mp hrow).1
    have hb : m[i]? = some m[i] := List.getElem?_eq_getElem hilt
    rw [markStep_cell m now df c hrow hb x, cellAt, hrow]
    simp [hx1, hx2]

theorem markCols_rows_length {df : DataFrame} {m : List Bool} {cats : List String}
    {now : String} (hm : m.length = df.rows.length) :
    (markCols df m cats now).rows.length = df.rows.length := by
  induction cats generalizing df with
  | nil => rfl
  | cons c cs ih =>
    rw [markCols_cons,
      ih (by rw [markStep_rows_length m now df c hm]; exact hm),
      markStep_rows_length m now df c hm]

theorem markCols_cols_mem {df : DataFrame} {m : List Bool} {cats : List String}
    {now : String} (x : String) :
    x ∈ (markCols df m cats now).cols ↔
      x ∈ df.cols ∨ x ∈ cats ∨ ∃ c ∈ cats, x = tsOf c := by
  induction cats generalizing df with
  | nil => simp [markCols_nil]
  | cons c cs ih =>
    rw [markCols_cons, ih, markStep_cols_mem]
    simp only [List.mem_cons, exists_eq_or_imp]
    tauto

theorem markCols_cell_other {df : DataFrame} {m : List Bool} {cats : List String}
    {now : String} {x : String}
    (hm : m.length = df.rows.length) (hx1 : x ∉ cats) (hx2 : ∀ c ∈ cats, x ≠ tsOf c)
    (i : Nat) :
    cellAt (markCols df m cats now) i x = cellAt df i x := by
  induction cats generalizing df with
  | nil => rfl
  | cons c cs ih =>
    have hm' : m.length = (markStep m now df c).rows.length := by
      rw [markStep_rows_length m now df c hm]; exact hm
    rw [markCols_cons,
      ih hm' (fun hmem => hx1 (List.mem_cons_of_mem c hmem))
        (fun c1 h1 => hx2 c1 (List.mem_cons_of_mem c h1)),
      markStep_cell_other hm (fun he => hx1 (List.mem_cons.mpr (Or.inl he)))
        (hx2 c (List.mem_cons_self c cs)) i]

theorem markCols_flag_true {df : DataFrame} {m : List Bool} {cats : List String}
    {now : String} {c : String} {i : Nat}
    (hm : m.length = df.rows.length) (hb : m[i]? = some true) (hc : c ∈ cats)
    (hnts : ∀ c0 ∈ cats, c ≠ tsOf c0) :
    cellAt (markCols df m cats now) i c = some (.bool true) := by
  induction cats generalizing df with
  | nil => exact absurd hc (List.not_mem_nil c)
  | cons c0 cs ih =>
    have hm' : m.length = (markStep m now df c0).rows.length := by
      rw [markStep_rows_length m now df c0 hm]; exact hm
    rw [markCols_cons]
    by_cases hcs : c ∈ cs
    · exact ih hm' hcs (fun c1 h1 => hnts c1 (List.mem_cons_of_mem c0 h1))
    · have hc0 : c = c0 := (List.mem_cons.mp hc).resolve_right hcs
      subst hc0
      rw [markCols_cell_other hm' hcs (fun c1 h1 => hnts c1 (List.mem_cons_of_mem c h1)) i]
      have hilt : i < df.rows.length := by
        rw [← hm]; exact (List.getElem?_eq_some_iff.mp hb).1
      have hrow : df.rows[i]? = some df.rows[i] := List.getElem?_eq_getElem hilt
      rw [markStep_cell m now df c hrow hb c]
      have hne : ¬ (c = tsOf c) := fun he => tsOf_ne_self c he.symm
      simp [hne]

theorem markCols_ts_now {df : DataFrame} {m : List Bool} {cats : List String}
    {now : String} {c : String} {i : Nat}
    (hm : m.length = df.rows.length) (hb : m[i]? = some true) (hc : c ∈ cats)
    (hts : ∀ c1 ∈ cats, c1 ≠ tsOf c) :
    cellAt (markCols df m cats now) i (tsOf c) = some (.str now) := by
  induction cats generalizing df with
  | nil => exact absurd hc (List.not_mem_nil c)
  | cons c0 cs ih =>
    have hm' : m.length = (markStep m now df c0).rows.length := by
      rw [markStep_rows_length m now df c0 hm]; exact hm
    rw [markCols_cons]
    by_cases hcs : c ∈ cs
    · exact ih hm' hcs (fun c1 h1 => hts c1 (List.mem_cons_of_mem c0 h1))
    · have hc0 : c = c0 := (List.mem_cons.mp hc).resolve_right hcs
      subst hc0
      have hnotmem : tsOf c ∉ cs := fun hmem =>
        hts (tsOf c) (List.mem_cons_of_mem c hmem) rfl
      have hnotts : ∀ c1 ∈ cs, tsOf c ≠ tsOf c1 := fun c1 h1 he =>
        hcs (tsOf_inj he ▸ h1)
      rw [markCols_cell_other hm' hnotmem hnotts i]
      have hilt : i < df.rows.length := by
        rw [← hm]; exact (List.getElem?_eq_some_iff.mp hb).1
      have hrow : df.rows[i]? = some df.rows[i] := List.getElem?_eq_getElem hilt
      rw [markStep_cell m now df c hrow hb (tsOf c)]
      simp

theorem markStep_cell_keep_unmatched {m : List Bool} {now : String} {df : DataFrame}
    {c x : String} {i : Nat}
    (hm : m.length = df.rows.length) (hb : m[i]? = some false)
    (hxc : x ∈ df.cols ∨ x ≠ c) (hx2 : x ≠ tsOf c) :
    cellAt (markStep m now df c) i x = cellAt df i x := by
  have hilt : i < df.rows.length := by
    rw [← hm]; exact (List.getElem?_eq_some_iff.mp hb).1
  have hrow : df.rows[i]? = some df.rows[i] := List.getElem?_eq_getElem hilt
  rw [markStep_cell m now df c hrow hb x, cellAt, hrow]
  by_cases hx1 : x = c
  · have hcc : c ∈ df.cols := by
      rcases hxc with hmem | hne
      · exact hx1 ▸ hmem
      · exact absurd hx1 hne
    have hne2 : ¬ (c = tsOf c) := fun h2 => tsOf_ne_self c h2.symm
    simp [hx2, hx1, hcc, hne2]
  · simp [hx2, hx1]

theorem markStep_cell_unmatched_nocreate {m : List Bool} {now : String} {df : DataFrame}
    {c : String} {i : Nat}
    (hm : m.length = df.rows.length) (hb : m[i]? = some false)
    (hc : c ∈ df.cols) (hts : tsOf c ∈ df.cols) (x : String) :
    cellAt (markStep m now df c) i x = cellAt df i x := by
  have hilt : i < df.rows.length := by
    rw [← hm]; exact (List.getElem?_eq_some_iff.mp hb).1
  have hrow : df.rows[i]? = some df.rows[i] := List.getElem?_eq_getElem hilt
  rw [markStep_cell m now df c hrow hb x, cellAt, hrow]
  by_cases hx1 : x = tsOf c
  · simp [hx1, hts]
  · by_cases hx2 : x = c
    · have hne2 : ¬ (c = tsOf c) := fun h2 => tsOf_ne_self c h2.symm
      simp [hx1, hx2, hc, hne2]
    · simp [hx1, hx2]

theorem markCols_unmatched_keep {df : DataFrame} {m : List Bool} {cats : List String}
    {now : String} {x : String} {i : Nat}
    (hm : m.length = df.rows.length) (hb : m[i]? = some false) (hxcols : x ∈ df.cols)
    (hx2 : ∀ c ∈ cats, x ≠ tsOf c) :
    cellAt (markCols df m cats now) i x = cellAt df i x := by
  induction cats generalizing df with
  | nil => rfl
  | cons c cs ih =>
    have hm' : m.length = (markStep m now df c).rows.length := by
      rw [markStep_rows_length m now df c hm]; exact hm
    rw [markCols_cons,
      ih hm' ((markStep_cols_mem m now df c x).mpr (Or.inl hxcols))
        (fun c1 h1 => hx2 c1 (List.mem_cons_of_mem c h1)),
      markStep_cell_keep_unmatched hm hb (Or.inl hxcols) (hx2 c (List.mem_cons_self c cs))]

theorem markCols_unmatched_nocreate {df : DataFrame} {m : List Bool} {cats : List String}
    {now : String} {i : Nat}
    (hm : m.length = df.rows.length) (hb : m[i]? = some false)
    (hall : ∀ c ∈ cats, c ∈ df.cols ∧ tsOf c ∈ df.cols) (x : String) :
    cellAt (markCols df m cats now) i x = cellAt df i x := by
  induction cats generalizing df with
  | nil => rfl
  | cons c cs ih =>
    have hm' : m.length = (markStep m now df c).rows.length := by
      rw [markStep_rows_length m now df c hm]; exact hm
    have hc := hall c (List.mem_cons_self c cs)
    rw [markCols_cons,
      ih hm' (fun c1 h1 =>
        ⟨(markStep_cols_mem m now df c c1).mpr (Or.inl (hall c1 (List.mem_cons_of_mem c h1)).1),
         (markStep_cols_mem m now df c (tsOf c1)).mpr
           (Or.inl (hall c1 (List.mem_cons_of_mem c h1)).2)⟩),
      markStep_cell_unmatched_nocreate hm hb hc.1 hc.2 x]

theorem markCols_create_false {df : DataFrame} {m : List Bool} {cats : List String}
    {now : String} {c : String} {i : Nat}
    (hm : m.length = df.rows.length) (hb : m[i]? = some false)
    (hc : c ∈ cats) (hnc : c ∉ df.cols) (hnts : ∀ c0 ∈ cats, c ≠ tsOf c0) :
    cellAt (markCols df m cats now) i c = some (.bool false) := by
  induction cats generalizing df with
  | nil => exact absurd hc (List.not_mem_nil c)
  | cons c0 cs ih =>
    have hm' : m.length = (markStep m now df c0).rows.length := by
      rw [markStep_rows_length m now df c0 hm]; exact hm
    rw [markCols_cons]
    by_cases he : c = c0
    · subst he
      have hmem : c ∈ (markStep m now df c).cols :=
        (markStep_cols_mem m now df c c).mpr (Or.inr (Or.inl rfl))
      rw [markCols_unmatched_keep hm' hb hmem
        (fun c1 h1 => hnts c1 (List.mem_cons_of_mem c h1))]
      have hilt : i < df.rows.length := by
        rw [← hm]; exact (List.getElem?_eq_some_iff.mp hb).1
      have hrow : df.rows[i]? = some df.rows[i] := List.getElem?_eq_getElem hilt
      rw [markStep_cell m now df c hrow hb c]
      have hne : ¬ (c = tsOf c) := fun h2 => tsOf_ne_self c h2.symm
      simp [hne, hnc]
    · have hcs : c ∈ cs := (List.mem_cons.mp hc).resolve_left he
      have hnc' : c ∉ (markStep m now df c0).cols := by
        rw [markStep_cols_mem]
        push_neg
        exact ⟨hnc, he, hnts c0 (List.mem_cons_self c0 cs)⟩
      exact ih hm' hcs hnc' (fun c1 h1 => hnts c1 (List.mem_cons_of_mem c0 h1))

theorem mark_attendance_df_eq (df : DataFrame) (identifier : String) (cats : List String)
    (sp : Option String) (now : DateTime) (w : Except String Unit) :
    (mark_attendance df identifier cats sp now w).df =
      if (maskOf df identifier).any (fun b => b) then
        markCols df (maskOf df identifier) cats (isoformat now)
      else df := by
  rw [mark_attendance]
  by_cases h : (maskOf df identifier).any (fun b => b)
  · simp only [h, not_true_eq_false, if_false, if_true]
    cases sp with
    | none => rfl
    | some p =>
      by_cases hp : p = ""
      · simp [hp]
      · cases w <;> simp [hp]
  · simp [h]

theorem mark_attendance_ok_eq (df : DataFrame) (identifier : String) (cats : List String)
    (sp : Option String) (now : DateTime) (w : Except String Unit) :
    (mark_attendance df identifier cats sp now w).ok =
      (maskOf df identifier).any (fun b => b) := by
  rw [mark_attendance]
  by_cases h : (maskOf df identifier).any (fun b => b)
  · simp only [h, not_true_eq_false, if_false, if_true]
    cases sp with
    | none => rfl
    | some p =>
      by_cases hp : p = ""
      · simp [hp]
      · cases w <;> simp [hp]
  · simp [h]

theorem isoformat_ne_empty (t : DateTime) : isoformat t ≠ "" := by
  intro h
  have hd := congrArg String.data h
  rw [isoformat] at hd
  simp only [String.data_append, List.append_eq_nil] at hd
  have : ("-" : String).data = [] := hd.1.1.1.1.1.1.1.1.1.1.2
  exact absurd this (by decide)

theorem ensureStep_cols_mem (df : DataFrame) (c x : String) :
    x ∈ (ensureStep df c).cols ↔ x ∈ df.cols ∨ x = c ∨ x = tsOf c := by
  have hne : (tsOf c : String) ≠ c := tsOf_ne_self c
  by_cases h : c ∈ df.cols
  · by_cases h2 : tsOf c ∈ df.cols
    · have heq : ensureStep df c = df := by simp [ensureStep, h, h2]
      rw [heq]
      constructor
      · exact Or.inl
      · rintro (hh | rfl | rfl) <;> assumption
    · have heq : ensureStep df c = assignCol df (tsOf c) (.str "") := by
        simp [ensureStep, h, h2]
      rw [heq, assignCol_cols_mem]
      constructor
      · rintro (hh | rfl)
        · exact Or.inl hh
        · exact Or.inr (Or.inr rfl)
      · rintro (hh | rfl | rfl)
        · exact Or.inl hh
        · exact Or.inl h
        · exact Or.inr rfl
  · by_cases hmem : tsOf c ∈ (assignCol df c (Val.bool false)).cols
    · have h2 : tsOf c ∈ df.cols := by
        rcases (assignCol_cols_mem df c _ (tsOf c)).mp hmem with hh | hh
        · exact hh
        · exact absurd hh hne
      have heq : ensureStep df c = assignCol df c (.bool false) := by
        simp [ensureStep, h, hmem]
      rw [heq, assignCol_cols_mem]
      constructor
      · rintro (hh | rfl)
        · exact Or.inl hh
        · exact Or.inr (Or.inl rfl)
      · rintro (hh | rfl | rfl)
        · exact Or.inl hh
        · exact Or.inr rfl
        · exact Or.inl h2
    · have heq : ensureStep df c = assignCol (assignCol df c (.bool false)) (tsOf c) (.str "") := by
        simp [ensureStep, h, hmem]
      rw [heq, assignCol_cols_mem, assignCol_cols_mem]
      constructor
      · rintro ((hh | rfl) | rfl)
        · exact Or.inl hh
        · exact Or.inr (Or.inl rfl)
        · exact Or.inr (Or.inr rfl)
      · rintro (hh | rfl | rfl)
        · exact Or.inl (Or.inl hh)
        · exact Or.inl (Or.inr rfl)
        · exact Or.inr rfl

theorem ensureStep_rows_length (df : DataFrame) (c : String) :
    (ensureStep df c).rows.length = df.rows.length := by
  by_cases h : c ∈ df.cols
  · by_cases h2 : tsOf c ∈ df.cols
    · simp [ensureStep, h, h2]
    · simp [ensureStep, h, h2, assignCol_rows_length]
  · by_cases hmem : tsOf c ∈ (assignCol df c (Val.bool false)).cols
    · simp [ensureStep, h, hmem, assignCol_rows_length]
    · simp [ensureStep, h, hmem, assignCol_rows_length]

theorem ensureStep_cell (df : DataFrame) (c : String) {i : Nat} {r : Row}
    (hi : df.rows[i]? = some r) (x : String) :
    cellAt (ensureStep df c) i x =
      some (if x = tsOf c then (if tsOf c ∈ df.cols then r x else .str "")
        else if x = c then (if c ∈ df.cols then r x else .bool false)
        else r x) := by
  have hne : (tsOf c : String) ≠ c := tsOf_ne_self c
  have hne2 : ¬ (c = tsOf c) := fun h3 => hne h3.symm
  by_cases h : c ∈ df.cols
  · by_cases h2 : tsOf c ∈ df.cols
    · have heq : ensureStep df c = df := by simp [ensureStep, h, h2]
      rw [heq, cellAt, hi]
      by_cases hx1 : x = tsOf c <;> by_cases hx2 : x = c <;> simp [hx1, hx2, h, h2]
    · have heq : ensureStep df c = assignCol df (tsOf c) (.str "") := by
        simp [ensureStep, h, h2]
      rw [heq, cellAt, assignCol_rows_getElem?, hi]
      by_cases hx1 : x = tsOf c <;> by_cases hx2 : x = c <;>
        simp [setCol, hx1, hx2, h, h2, hne, hne2]
  · by_cases h2 : tsOf c ∈ df.cols
    · have hmem : tsOf c ∈ (assignCol df c (Val.bool false)).cols := by
        rw [assignCol_cols_mem]; exact Or.inl h2
      have heq : ensureStep df c = assignCol df c (.bool false) := by
        simp [ensureStep, h, hmem]
      rw [heq, cellAt, assignCol_rows_getElem?, hi]
      by_cases hx1 : x = tsOf c <;> by_cases hx2 : x = c <;>
        simp [setCol, hx1, hx2, h, h2, hne, hne2]
    · have hmem : ¬ (tsOf c ∈ (assignCol df c (Val.bool false)).cols) := by
        rw [assignCol_cols_mem]
        rintro (h3 | h3)
        · exact h2 h3
        · exact hne h3
      have heq : ensureStep df c
          = assignCol (assignCol df c (.bool false)) (tsOf c) (.str "") := by
        simp [ensureStep, h, hmem]
      rw [heq, cellAt, assignCol_rows_getElem?, assignCol_rows_getElem?, hi]
      by_cases hx1 : x = tsOf c <;> by_cases hx2 : x = c <;>
        simp [setCol, hx1, hx2, h, h2, hne, hne2]

theorem ensureStep_cell_keep {df : DataFrame} {c x : String}
    (hx : x ∈ df.cols) (i : Nat) :
    cellAt (ensureStep df c) i x = cellAt df i x := by
  cases hrow : df.rows[i]? with
  | none =>
    have hlen : df.rows.length ≤ i := List.getElem?_eq_none_iff.mp hrow
    have hnone : (ensureStep df c).rows[i]? = none := by
      rw [List.getElem?_eq_none_iff, ensureStep_rows_length]; exact hlen
    simp [cellAt, hrow, hnone]
  | some r =>
    rw [ensureStep_cell df c hrow x, cellAt, hrow]
    have hne2 : ¬ (c = tsOf c) := fun h3 => tsOf_ne_self c h3.symm
    by_cases hx1 : x = tsOf c
    · simp [hx1, hx1 ▸ hx]
    · by_cases hx2 : x = c
      · simp [hx1, hx2, hx2 ▸ hx, hne2]
      · simp [hx1, hx2]

theorem ensureFold_rows_length {df : DataFrame} {L : List String} :
    (L.foldl ensureStep df).rows.length = df.rows.length := by
  induction L generalizing df with
  | nil => rfl
  | cons c cs ih => rw [List.foldl_cons, ih, ensureStep_rows_length]

theorem ensureFold_cols_mem {df : DataFrame} {L : List String} (x : String) :
    x ∈ (L.foldl ensureStep df).cols ↔ x ∈ df.cols ∨ x ∈ L ∨ ∃ c ∈ L, x = tsOf c := by
  induction L generalizing df with
  | nil => simp
  | cons c cs ih =>
    rw [List.foldl_cons, ih, ensureStep_cols_mem]
    simp only [List.mem_cons, exists_eq_or_imp]
    tauto

theorem ensureFold_cell_keep {df : DataFrame} {L : List String} {x : String}
    (hx : x ∈ df.cols) (i : Nat) :
    cellAt (L.foldl ensureStep df) i x = cellAt df i x := by
  induction L generalizing df with
  | nil => rfl
  | cons c cs ih =>
    rw [List.foldl_cons,
      ih ((ensureStep_cols_mem df c x).mpr (Or.inl hx)),
      ensureStep_cell_keep hx i]

theorem ensureFold_create_flag {df : DataFrame} {L : List String} {c : String}
    (hc : c ∈ L) (hnc : c ∉ df.cols) (hnts : ∀ c0 ∈ L, c ≠ tsOf c0) (i : Nat) :
    cellAt (L.foldl ensureStep df) i c =
      if i < df.rows.length then some (.bool false) else none := by
  induction L generalizing df with
  | nil => exact absurd hc (List.not_mem_nil c)
  | cons c0 cs ih =>
    rw [List.foldl_cons]
    by_cases he : c = c0
    · subst he
      rw [ensureFold_cell_keep ((ensureStep_cols_mem df c c).mpr (Or.inr (Or.inl rfl))) i]
      by_cases hilt : i < df.rows.length
      · have hrow : df.rows[i]? = some df.rows[i] := List.getElem?_eq_getElem hilt
        rw [ensureStep_cell df c hrow c, if_pos hilt]
        have hne2 : ¬ (c = tsOf c) := fun h2 => tsOf_ne_self c h2.symm
        simp [hne2, hnc]
      · have hrow2 : (ensureStep df c).rows[i]? = none := by
          rw [List.getElem?_eq_none_iff, ensureStep_rows_length]
          exact Nat.le_of_not_lt hilt
        simp [cellAt, hrow2, hilt]
    · have hcs : c ∈ cs := (List.mem_cons.mp hc).resolve_left he
      have hnc' : c ∉ (ensureStep df c0).cols := by
        rw [ensureStep_cols_mem]
        push_neg
        exact ⟨hnc, he, hnts c0 (List.mem_cons_self c0 cs)⟩
      rw [ih hcs hnc' (fun c1 h1 => hnts c1 (List.mem_cons_of_mem c0 h1)),
        ensureStep_rows_length]

theorem ensureFold_create_ts {df : DataFrame} {L : List String} {c : String}
    (hc : c ∈ L) (hnc2 : tsOf c ∉ df.cols) (hnf : tsOf c ∉ L) (i : Nat) :
    cellAt (L.foldl ensureStep df) i (tsOf c) =
      if i < df.rows.length then some (.str "") else none := by
  induction L generalizing df with
  | nil => exact absurd hc (List.not_mem_nil c)
  | cons c0 cs ih =>
    rw [List.foldl_cons]
    by_cases he : c = c0
    · subst he
      rw [ensureFold_cell_keep
        ((ensureStep_cols_mem df c (tsOf c)).mpr (Or.inr (Or.inr rfl))) i]
      by_cases hilt : i < df.rows.length
      · have hrow : df.rows[i]? = some df.rows[i] := List.getElem?_eq_getElem hilt
        rw [ensureStep_cell df c hrow (tsOf c), if_pos hilt]
        simp [hnc2]
      · have hrow2 : (ensureStep df c).rows[i]? = none := by
          rw [List.getElem?_eq_none_iff, ensureStep_rows_length]
          exact Nat.le_of_not_lt hilt
        simp [cellAt, hrow2, hilt]
    · have hcs : c ∈ cs := (List.mem_cons.mp hc).resolve_left he
      have hnc' : tsOf c ∉ (ensureStep df c0).cols := by
        rw [ensureStep_cols_mem]
        push_neg
        refine ⟨hnc2, ?_, ?_⟩
        · intro h2; exact hnf (h2 ▸ List.mem_cons_self c0 cs)
        · intro h2; exact he (tsOf_inj h2)
      rw [ih hcs hnc' (fun h1 => hnf (List.mem_cons_of_mem c0 h1)),
        ensureStep_rows_length]

/-- C1, counterexample: on a roster whose only lookup column is `Name`,
the empty-string identifier matches no record, although the claim's rule
(absent `Srn`/`Email` treated as empty-string columns) says it should:
the absent-column default is the string `"None"`, not `""`. -/
theorem C1_counterexample :
    claimMatchEmptyDefault ["Name"] (nameRow "x") "" = true ∧
    (mark_attendance ⟨["Name"], [nameRow "x"]⟩ "" [] none sampleTime (.ok ())).ok
      = false := by
  decide

/-- C1, amended: a record is considered matched exactly when the
identifier equals the string coercion of its `Srn`, `Email` or `Name`
cell, where an absent column compares as the string `"None"` (so the
identifier `"None"`, not `""`, matches absent columns); the call
succeeds exactly when some record matches this rule. -/
theorem C1_amended (df : DataFrame) (identifier : String) (cats : List String)
    (sp : Option String) (now : DateTime) (w : Except String Unit) (i : Nat) :
    (maskOf df identifier)[i]? =
      (df.rows[i]?.map fun r => claimMatchNoneDefault df.cols r identifier) ∧
    ((mark_attendance df identifier cats sp now w).ok = true ↔
      ∃ r ∈ df.rows, claimMatchNoneDefault df.cols r identifier = true) := by
  constructor
  · rw [maskOf_getElem?]
    rfl
  · rw [mark_attendance_ok_eq]
    exact maskOf_any_iff df identifier

/-- C2: when no record matches the identifier, `mark_attendance` returns
failure with the exact message `No matching row found for id '<id>'`,
returns the roster unchanged, and never invokes `df.to_csv`. -/
theorem C2_no_match (df : DataFrame) (identifier : String) (cats : List String)
    (sp : Option String) (now : DateTime) (w : Except String Unit)
    (hno : ∀ r ∈ df.rows, rowMatch df.cols r identifier = false) :
    mark_attendance df identifier cats sp now w =
      ⟨df, false, "No matching row found for id \x27" ++ identifier ++ "\x27", false⟩ := by
  have hany : (maskOf df identifier).any (fun b => b) = false := by
    rw [Bool.eq_false_iff]
    intro htrue
    rcases (maskOf_any_iff df identifier).mp htrue with ⟨r, hr, hmatch⟩
    rw [hno r hr] at hmatch
    exact Bool.false_ne_true hmatch
  rw [mark_attendance]
  simp [hany]

/-- C2 witness: a concrete no-match call returns the exact failure record. -/
theorem C2_witness :
    mark_attendance ⟨["Name"], [nameRow "x"]⟩ "nobody" ["Dinner"] none sampleTime (.ok ()) =
      ⟨⟨["Name"], [nameRow "x"]⟩, false, "No matching row found for id \x27nobody\x27", false⟩ :=
  C2_no_match _ _ _ _ _ _ (by decide)

/-- C3, counterexample: with requested categories `["Dinner",
"Dinner_ts"]` on a matching record, the call succeeds but the timestamp
column paired with the category `Dinner` ends up holding the boolean
`True` rather than a non-empty ISO-8601 string (the later category
`Dinner_ts` overwrites it). -/
theorem C3_counterexample :
    (mark_attendance ⟨["Name"], [nameRow "A"]⟩ "A" ["Dinner", "Dinner_ts"]
      none sampleTime (.ok ())).ok = true ∧
    cellAt (mark_attendance ⟨["Name"], [nameRow "A"]⟩ "A" ["Dinner", "Dinner_ts"]
      none sampleTime (.ok ())).df 0 (tsOf "Dinner") = some (.bool true) ∧
    cellAt (mark_attendance ⟨["Name"], [nameRow "A"]⟩ "A" ["Dinner", "Dinner_ts"]
      none sampleTime (.ok ())).df 0 (tsOf "Dinner")
      ≠ some (.str (isoformat sampleTime)) := by
  decide

/-- C3, amended: provided no requested category is the paired timestamp
column of another requested category, a call with at least one matching
record succeeds, and every matching record gets every requested
category set to `True` and its paired timestamp column set to the
(non-empty) `isoformat` of the clock read during the call. -/
theorem C3_amended (df : DataFrame) (identifier : String) (cats : List String)
    (sp : Option String) (now : DateTime) (w : Except String Unit)
    (hcats : ∀ c ∈ cats, ∀ c1 ∈ cats, c1 ≠ tsOf c)
    (i : Nat) (r : Row) (hr : df.rows[i]? = some r)
    (hmatch : rowMatch df.cols r identifier = true) (c : String) (hc : c ∈ cats) :
    (mark_attendance df identifier cats sp now w).ok = true ∧
    cellAt (mark_attendance df identifier cats sp now w).df i c = some (.bool true) ∧
    cellAt (mark_attendance df identifier cats sp now w).df i (tsOf c) =
      some (.str (isoformat now)) ∧
    isoformat now ≠ "" := by
  have hb : (maskOf df identifier)[i]? = some true := by
    rw [maskOf_getElem?, hr]
    simp [hmatch]
  have hany : (maskOf df identifier).any (fun b => b) = true := by
    rw [List.any_eq_true]
    exact ⟨true, List.getElem?_mem hb, rfl⟩
  have hmlen : (maskOf df identifier).length = df.rows.length := maskOf_length df identifier
  have hdf : (mark_attendance df identifier cats sp now w).df =
      markCols df (maskOf df identifier) cats (isoformat now) := by
    rw [mark_attendance_df_eq, hany]
    rfl
  refine ⟨by rw [mark_attendance_ok_eq]; exact hany, ?_, ?_, isoformat_ne_empty now⟩
  · rw [hdf]
    exact markCols_flag_true hmlen hb hc (fun c0 h0 => hcats c0 h0 c hc)
  · rw [hdf]
    exact markCols_ts_now hmlen hb hc (fun c1 h1 => hcats c hc c1 h1)

/-- C3 witness: a concrete single-category call marks the matching
record's flag and timestamp. -/
theorem C3_witness :
    (mark_attendance ⟨["Name"], [nameRow "A"]⟩ "A" ["Dinner"]
      none sampleTime (.ok ())).ok = true ∧
    cellAt (mark_attendance ⟨["Name"], [nameRow "A"]⟩ "A" ["Dinner"]
      none sampleTime (.ok ())).df 0 "Dinner" = some (.bool true) ∧
    cellAt (mark_attendance ⟨["Name"], [nameRow "A"]⟩ "A" ["Dinner"]
      none sampleTime (.ok ())).df 0 (tsOf "Dinner") =
      some (.str (isoformat sampleTime)) ∧
    isoformat sampleTime ≠ "" :=
  C3_amended ⟨["Name"], [nameRow "A"]⟩ "A" ["Dinner"] none sampleTime (.ok ())
    (by decide) 0 (nameRow "A") rfl (by decide) "Dinner" (by decide)

/-- C4, counterexample: two records share `Name = "A"`; marking the
categories `["Dinner_ts", "Dinner"]` succeeds, but the requested
category `Dinner_ts` does not end up `True` on the matching records (it
ends as a timestamp string, overwritten by `Dinner`'s timestamp write),
contradicting "all matching records have each requested category
true". -/
theorem C4_counterexample :
    (mark_attendance ⟨["Name"], [nameRow "A", nameRow "A"]⟩ "A"
      ["Dinner_ts", "Dinner"] none sampleTime (.ok ())).ok = true ∧
    rowMatch ["Name"] (nameRow "A") "A" = true ∧
    cellAt (mark_attendance ⟨["Name"], [nameRow "A", nameRow "A"]⟩ "A"
      ["Dinner_ts", "Dinner"] none sampleTime (.ok ())).df 0 "Dinner_ts"
      ≠ some (.bool true) ∧
    cellAt (mark_attendance ⟨["Name"], [nameRow "A", nameRow "A"]⟩ "A"
      ["Dinner_ts", "Dinner"] none sampleTime (.ok ())).df 1 "Dinner_ts"
      ≠ some (.bool true) := by
  decide

/-- C4, amended: provided no requested category is the paired timestamp
column of another requested category, when two (or more) distinct
records match the identifier, the marking is applied to each of them —
not only the first: every requested category is `True` on both after
the call. -/
theorem C4_amended (df : DataFrame) (identifier : String) (cats : List String)
    (sp : Option String) (now : DateTime) (w : Except String Unit)
    (hcats : ∀ c ∈ cats, ∀ c1 ∈ cats, c1 ≠ tsOf c)
    (i j : Nat) (ri rj : Row)
    (hi : df.rows[i]? = some ri) (hj : df.rows[j]? = some rj) (hij : i ≠ j)
    (hmi : rowMatch df.cols ri identifier = true)
    (hmj : rowMatch df.cols rj identifier = true)
    (c : String) (hc : c ∈ cats) :
    cellAt (mark_attendance df identifier cats sp now w).df i c = some (.bool true) ∧
    cellAt (mark_attendance df identifier cats sp now w).df j c = some (.bool true) := by
  have hbi : (maskOf df identifier)[i]? = some true := by
    rw [maskOf_getElem?, hi]; simp [hmi]
  have hbj : (maskOf df identifier)[j]? = some true := by
    rw [maskOf_getElem?, hj]; simp [hmj]
  have hany : (maskOf df identifier).any (fun b => b) = true := by
    rw [List.any_eq_true]
    exact ⟨true, List.getElem?_mem hbi, rfl⟩
  have hmlen : (maskOf df identifier).length = df.rows.length := maskOf_length df identifier
  have hdf : (mark_attendance df identifier cats sp now w).df =
      markCols df (maskOf df identifier) cats (isoformat now) := by
    rw [mark_attendance_df_eq, hany]
    rfl
  rw [hdf]
  exact ⟨markCols_flag_true hmlen hbi hc (fun c0 h0 => hcats c0 h0 c hc),
    markCols_flag_true hmlen hbj hc (fun c0 h0 => hcats c0 h0 c hc)⟩

/-- C4 witness: both of two records sharing `Name = "A"` get `Pizza`
marked by one call. -/
theorem C4_witness :
    cellAt (mark_attendance ⟨["Name"], [nameRow "A", nameRow "A"]⟩ "A" ["Pizza"]
      none sampleTime (.ok ())).df 0 "Pizza" = some (.bool true) ∧
    cellAt (mark_attendance ⟨["Name"], [nameRow "A", nameRow "A"]⟩ "A" ["Pizza"]
      none sampleTime (.ok ())).df 1 "Pizza" = some (.bool true) :=
  C4_amended ⟨["Name"], [nameRow "A", nameRow "A"]⟩ "A" ["Pizza"] none sampleTime
    (.ok ()) (by decide) 0 1 (nameRow "A") (nameRow "A") rfl rfl (by decide)
    (by decide) (by decide) "Pizza" (by decide)

/-- C6: when records matched and the write back to the source CSV path
raises, the call still returns success, its roster equals the roster a
fully successful call would produce (the in-memory marking is kept, not
rolled back), the message separately reports the persistence failure,
and the write was attempted. -/
theorem C6_persist_failure (df : DataFrame) (identifier : String) (cats : List String)
    (p : String) (now : DateTime) (e : String) (hp : p ≠ "")
    (hmatch : ∃ r ∈ df.rows, rowMatch df.cols r identifier = true) :
    (mark_attendance df identifier cats (some p) now (.error e)).ok = true ∧
    (mark_attendance df identifier cats (some p) now (.error e)).msg =
      "Marked (but failed to write to source CSV: " ++ e ++ ")" ∧
    (mark_attendance df identifier cats (some p) now (.error e)).df =
      (mark_attendance df identifier cats none now (.ok ())).df ∧
    (mark_attendance df identifier cats (some p) now (.error e)).wroteAttempt = true ∧
    (mark_attendance df identifier cats none now (.ok ())).msg = "Marked" := by
  have hany : (maskOf df identifier).any (fun b => b) = true :=
    (maskOf_any_iff df identifier).mpr hmatch
  refine ⟨?_, ?_, ?_, ?_, ?_⟩ <;> simp [mark_attendance, hany, hp]

/-- C6 witness: a concrete matched call with a failing CSV write. -/
theorem C6_witness :
    (mark_attendance ⟨["Name"], [nameRow "A"]⟩ "A" ["Dinner"] (some "teams.csv")
      sampleTime (.error "disk full")).ok = true ∧
    (mark_attendance ⟨["Name"], [nameRow "A"]⟩ "A" ["Dinner"] (some "teams.csv")
      sampleTime (.error "disk full")).msg =
      "Marked (but failed to write to source CSV: " ++ "disk full" ++ ")" ∧
    (mark_attendance ⟨["Name"], [nameRow "A"]⟩ "A" ["Dinner"] (some "teams.csv")
      sampleTime (.error "disk full")).df =
      (mark_attendance ⟨["Name"], [nameRow "A"]⟩ "A" ["Dinner"] none
        sampleTime (.ok ())).df ∧
    (mark_attendance ⟨["Name"], [nameRow "A"]⟩ "A" ["Dinner"] (some "teams.csv")
      sampleTime (.error "disk full")).wroteAttempt = true ∧
    (mark_attendance ⟨["Name"], [nameRow "A"]⟩ "A" ["Dinner"] none
      sampleTime (.ok ())).msg = "Marked" :=
  C6_persist_failure ⟨["Name"], [nameRow "A"]⟩ "A" ["Dinner"] "teams.csv"
    sampleTime "disk full" (by decide) (by decide)

/-- C9: `ensure_attendance_columns` adds each of the four attendance
flag columns as all-`False` when missing and each paired timestamp
column as all-blank when missing, leaves every pre-existing column and
its values unchanged, and afterwards every attendance flag column has
its paired timestamp column. -/
theorem C9_ensure_columns (df : DataFrame) (i : Nat) (r : Row)
    (hr : df.rows[i]? = some r) :
    (∀ c ∈ DEFAULT_COLUMNS,
      (c ∈ (ensure_attendance_columns df).cols ∧
        tsOf c ∈ (ensure_attendance_columns df).cols) ∧
      (c ∉ df.cols → cellAt (ensure_attendance_columns df) i c = some (.bool false)) ∧
      (tsOf c ∉ df.cols →
        cellAt (ensure_attendance_columns df) i (tsOf c) = some (.str ""))) ∧
    ∀ x ∈ df.cols, x ∈ (ensure_attendance_columns df).cols ∧
      cellAt (ensure_attendance_columns df) i x = cellAt df i x := by
  have hilt : i < df.rows.length := (List.getElem?_eq_some_iff.mp hr).1
  have he : ensure_attendance_columns df = DEFAULT_COLUMNS.foldl ensureStep df := rfl
  have hd : ∀ c0 ∈ DEFAULT_COLUMNS, ∀ c1 ∈ DEFAULT_COLUMNS, c1 ≠ tsOf c0 := by decide
  have hf : ∀ c0 ∈ DEFAULT_COLUMNS, tsOf c0 ∉ DEFAULT_COLUMNS := by decide
  constructor
  · intro c hc
    refine ⟨⟨?_, ?_⟩, ?_, ?_⟩
    · rw [he, ensureFold_cols_mem]
      exact Or.inr (Or.inl hc)
    · rw [he, ensureFold_cols_mem]
      exact Or.inr (Or.inr ⟨c, hc, rfl⟩)
    · intro hnc
      rw [he, ensureFold_create_flag hc hnc (fun c0 h0 => hd c0 h0 c hc) i, if_pos hilt]
    · intro hnc2
      rw [he, ensureFold_create_ts hc hnc2 (hf c hc) i, if_pos hilt]
  · intro x hx
    constructor
    · rw [he, ensureFold_cols_mem]
      exact Or.inl hx
    · rw [he]
      exact ensureFold_cell_keep hx i

/-- C9 witness: on a roster with only a `Name` column, the ensure pass
creates `Dinner` as `False` and `Dinner_ts` as blank and keeps `Name`. -/
theorem C9_witness :
    cellAt (ensure_attendance_columns ⟨["Name"], [nameRow "A"]⟩) 0 "Dinner"
      = some (.bool false) ∧
    cellAt (ensure_attendance_columns ⟨["Name"], [nameRow "A"]⟩) 0 (tsOf "Dinner")
      = some (.str "") ∧
    cellAt (ensure_attendance_columns ⟨["Name"], [nameRow "A"]⟩) 0 "Name"
      = cellAt ⟨["Name"], [nameRow "A"]⟩ 0 "Name" :=
  ⟨(((C9_ensure_columns ⟨["Name"], [nameRow "A"]⟩ 0 (nameRow "A") rfl).1 "Dinner"
      (by decide)).2.1 (by decide)),
   (((C9_ensure_columns ⟨["Name"], [nameRow "A"]⟩ 0 (nameRow "A") rfl).1 "Dinner"
      (by decide)).2.2 (by decide)),
   ((C9_ensure_columns ⟨["Name"], [nameRow "A"]⟩ 0 (nameRow "A") rfl).2 "Name"
      (by decide)).2⟩

/-- C10, counterexample: with requested categories `["X", "X_ts"]` on a
roster without either column, the requested category `X_ts` is first
created by `X`'s timestamp write, so for the unmatched record it holds
`nan`, not `False`, contradicting "for unmatched records the newly
created column stays false". -/
theorem C10_counterexample :
    (mark_attendance ⟨["Name"], [nameRow "A", nameRow "B"]⟩ "A" ["X", "X_ts"]
      none sampleTime (.ok ())).ok = true ∧
    cellAt (mark_attendance ⟨["Name"], [nameRow "A", nameRow "B"]⟩ "A" ["X", "X_ts"]
      none sampleTime (.ok ())).df 1 "X_ts" = some .nan ∧
    cellAt (mark_attendance ⟨["Name"], [nameRow "A", nameRow "B"]⟩ "A" ["X", "X_ts"]
      none sampleTime (.ok ())).df 1 "X_ts" ≠ some (.bool false) := by
  decide

/-- C10, amended: provided the requested category is not the paired
timestamp column of another requested category, marking never fails
because a column is absent: a call with a matching record succeeds, the
missing category column is created, matching records get it `True`, and
unmatched records keep the freshly created `False`. -/
theorem C10_missing_column (df : DataFrame) (identifier : String) (cats : List String)
    (sp : Option String) (now : DateTime) (w : Except String Unit)
    (c : String) (hc : c ∈ cats) (hnc : c ∉ df.cols)
    (hnts : ∀ c0 ∈ cats, c ≠ tsOf c0)
    (hmatch : ∃ r0 ∈ df.rows, rowMatch df.cols r0 identifier = true)
    (i : Nat) (r : Row) (hr : df.rows[i]? = some r) :
    (mark_attendance df identifier cats sp now w).ok = true ∧
    (rowMatch df.cols r identifier = true →
      cellAt (mark_attendance df identifier cats sp now w).df i c
        = some (.bool true)) ∧
    (rowMatch df.cols r identifier = false →
      cellAt (mark_attendance df identifier cats sp now w).df i c
        = some (.bool false)) := by
  have hany : (maskOf df identifier).any (fun b => b) = true :=
    (maskOf_any_iff df identifier).mpr hmatch
  have hmlen : (maskOf df identifier).length = df.rows.length := maskOf_length df identifier
  have hdf : (mark_attendance df identifier cats sp now w).df =
      markCols df (maskOf df identifier) cats (isoformat now) := by
    rw [mark_attendance_df_eq, hany]
    rfl
  refine ⟨by rw [mark_attendance_ok_eq]; exact hany, ?_, ?_⟩
  · intro hm
    have hb : (maskOf df identifier)[i]? = some true := by
      rw [maskOf_getElem?, hr]; simp [hm]
    rw [hdf]
    exact markCols_flag_true hmlen hb hc hnts
  · intro hm
    have hb : (maskOf df identifier)[i]? = some false := by
      rw [maskOf_getElem?, hr]; simp [hm]
    rw [hdf]
    exact markCols_create_false hmlen hb hc hnc hnts

/-- C10 witness: category `X` is absent from the roster; the call
succeeds, the matching record gets `X = True`, the other keeps the
created `False`. -/
theorem C10_witness :
    (mark_attendance ⟨["Name"], [nameRow "A", nameRow "B"]⟩ "A" ["X"]
      none sampleTime (.ok ())).ok = true ∧
    cellAt (mark_attendance ⟨["Name"], [nameRow "A", nameRow "B"]⟩ "A" ["X"]
      none sampleTime (.ok ())).df 0 "X" = some (.bool true) ∧
    cellAt (mark_attendance ⟨["Name"], [nameRow "A", nameRow "B"]⟩ "A" ["X"]
      none sampleTime (.ok ())).df 1 "X" = some (.bool false) :=
  ⟨(C10_missing_column ⟨["Name"], [nameRow "A", nameRow "B"]⟩ "A" ["X"] none
      sampleTime (.ok ()) "X" (by decide) (by decide) (by decide) (by decide)
      0 (nameRow "A") rfl).1,
   (C10_missing_column ⟨["Name"], [nameRow "A", nameRow "B"]⟩ "A" ["X"] none
      sampleTime (.ok ()) "X" (by decide) (by decide) (by decide) (by decide)
      0 (nameRow "A") rfl).2.1 (by decide),
   (C10_missing_column ⟨["Name"], [nameRow "A", nameRow "B"]⟩ "A" ["X"] none
      sampleTime (.ok ()) "X" (by decide) (by decide) (by decide) (by decide)
      1 (nameRow "B") rfl).2.2 (by decide)⟩

theorem maskOf_after_mark_unmatched (now : String) {df : DataFrame} {identifier : String}
    {cats : List String} {i : Nat}
    (hprov : ∀ c ∈ cats, (c = "Srn" ∨ c = "Email" ∨ c = "Name") → c ∈ df.cols)
    (hb : (maskOf df identifier)[i]? = some false) :
    (maskOf (markCols df (maskOf df identifier) cats now) identifier)[i]? = some false := by
  have hm1len : (maskOf df identifier).length = df.rows.length := maskOf_length df identifier
  have hilt : i < df.rows.length := by
    rw [← hm1len]; exact (List.getElem?_eq_some_iff.mp hb).1
  have hrow0 : df.rows[i]? = some df.rows[i] := List.getElem?_eq_getElem hilt
  have hilt1 : i < (markCols df (maskOf df identifier) cats now).rows.length := by
    rw [markCols_rows_length hm1len]; exact hilt
  have hrow1 : (markCols df (maskOf df identifier) cats now).rows[i]?
      = some (markCols df (maskOf df identifier) cats now).rows[i] :=
    List.getElem?_eq_getElem hilt1
  have key : ∀ y : String, (y = "Srn" ∨ y = "Email" ∨ y = "Name") →
      cellStr (markCols df (maskOf df identifier) cats now).cols
          ((markCols df (maskOf df identifier) cats now).rows[i]) y
        = cellStr df.cols (df.rows[i]) y := by
    intro y hy
    have hyts : ∀ c, y ≠ tsOf c := by
      rcases hy with rfl | rfl | rfl
      · exact srn_ne_tsOf
      · exact email_ne_tsOf
      · exact name_ne_tsOf
    have hcell : cellAt (markCols df (maskOf df identifier) cats now) i y
        = cellAt df i y := by
      by_cases hyc : y ∈ cats
      · exact markCols_unmatched_keep hm1len hb (hprov y hyc hy) (fun c _ => hyts c)
      · exact markCols_cell_other hm1len hyc (fun c _ => hyts c) i
    have hval : (markCols df (maskOf df identifier) cats now).rows[i] y
        = df.rows[i] y := by
      rw [cellAt, cellAt, hrow0, hrow1] at hcell
      exact Option.some.inj hcell
    have hmem : (y ∈ (markCols df (maskOf df identifier) cats now).cols)
        ↔ (y ∈ df.cols) := by
      rw [markCols_cols_mem]
      constructor
      · rintro (h | h | ⟨c, hcin, heq⟩)
        · exact h
        · exact hprov y h hy
        · exact absurd heq (hyts c)
      · exact Or.inl
    rw [cellStr, cellStr]
    by_cases hyy : y ∈ df.cols
    · rw [if_pos hyy, if_pos (hmem.mpr hyy), hval]
    · rw [if_neg hyy, if_neg (fun hh => hyy (hmem.mp hh))]
  have hfalse : rowMatch df.cols (df.rows[i]) identifier = false := by
    have hbv : (maskOf df identifier)[i]?
        = some (rowMatch df.cols (df.rows[i]) identifier) := by
      rw [maskOf_getElem?, hrow0]; rfl
    have := hbv.symm.trans hb
    exact Option.some.inj this
  rw [maskOf_getElem?, hrow1]
  simp only [Option.map_some']
  rw [show rowMatch (markCols df (maskOf df identifier) cats now).cols
      ((markCols df (maskOf df identifier) cats now).rows[i]) identifier
      = rowMatch df.cols (df.rows[i]) identifier by
    simp only [rowMatch]
    rw [key "Srn" (Or.inl rfl), key "Email" (Or.inr (Or.inl rfl)),
      key "Name" (Or.inr (Or.inr rfl))]]
  rw [hfalse]

/-- C5, counterexample: marking the absent identity column `Srn` with
identifier `"False"` is not idempotent on flag state: the first call
creates `Srn = False` on the unmatched second record, whose stringified
`Srn` cell then equals the identifier, so the second call flips that
record's `Srn` flag from `False` to `True`. -/
theorem C5_counterexample :
    cellAt (mark_attendance ⟨["Name"], [nameRow "False", nameRow "x"]⟩ "False"
      ["Srn"] none sampleTime (.ok ())).df 1 "Srn" = some (.bool false) ∧
    cellAt (mark_attendance (mark_attendance ⟨["Name"], [nameRow "False", nameRow "x"]⟩
      "False" ["Srn"] none sampleTime (.ok ())).df "False" ["Srn"] none sampleTime
      (.ok ())).df 1 "Srn" = some (.bool true) := by
  decide

/-- C5, amended: provided no requested category is an identity lookup
column (`Srn`, `Email`, `Name`) that is absent from the roster, marking
the same identifier with the same categories twice leaves every
record's value in every column that is not the paired timestamp column
of a requested category — in particular every flag value — identical to
its value after the first call (only those timestamp columns may
differ). -/
theorem C5_idempotent (df : DataFrame) (identifier : String) (cats : List String)
    (sp : Option String) (t1 t2 : DateTime) (w1 w2 : Except String Unit)
    (hprov : ∀ c ∈ cats, (c = "Srn" ∨ c = "Email" ∨ c = "Name") → c ∈ df.cols)
    (i : Nat) (x : String) (hx : ∀ c ∈ cats, x ≠ tsOf c) :
    cellAt (mark_attendance (mark_attendance df identifier cats sp t1 w1).df
      identifier cats sp t2 w2).df i x
      = cellAt (mark_attendance df identifier cats sp t1 w1).df i x := by
  by_cases hany1 : (maskOf df identifier).any (fun b => b) = true
  case neg =>
    have h1 : (mark_attendance df identifier cats sp t1 w1).df = df := by
      rw [mark_attendance_df_eq, if_neg hany1]
    rw [h1, mark_attendance_df_eq, if_neg hany1]
  case pos =>
    have h1 : (mark_attendance df identifier cats sp t1 w1).df
        = markCols df (maskOf df identifier) cats (isoformat t1) := by
      rw [mark_attendance_df_eq, if_pos hany1]
    rw [h1]
    have hm1len : (maskOf df identifier).length = df.rows.length :=
      maskOf_length df identifier
    have hdf1len : (markCols df (maskOf df identifier) cats (isoformat t1)).rows.length
        = df.rows.length := markCols_rows_length hm1len
    have hm2len : (maskOf (markCols df (maskOf df identifier) cats (isoformat t1))
          identifier).length
        = (markCols df (maskOf df identifier) cats (isoformat t1)).rows.length :=
      maskOf_length _ identifier
    by_cases hany2 : (maskOf (markCols df (maskOf df identifier) cats (isoformat t1))
        identifier).any (fun b => b) = true
    case neg =>
      rw [mark_attendance_df_eq, if_neg hany2]
    case pos =>
      rw [mark_attendance_df_eq, if_pos hany2]
      cases hb2 : (maskOf (markCols df (maskOf df identifier) cats (isoformat t1))
          identifier)[i]? with
      | none =>
        have hlen : (markCols df (maskOf df identifier) cats (isoformat t1)).rows.length
            ≤ i := by
          rw [← hm2len]; exact List.getElem?_eq_none_iff.mp hb2
        have hn1 : cellAt (markCols df (maskOf df identifier) cats (isoformat t1)) i x
            = none := by
          rw [cellAt, List.getElem?_eq_none_iff.mpr hlen]; rfl
        have hn2 : cellAt (markCols
            (markCols df (maskOf df identifier) cats (isoformat t1))
            (maskOf (markCols df (maskOf df identifier) cats (isoformat t1)) identifier)
            cats (isoformat t2)) i x = none := by
          rw [cellAt, List.getElem?_eq_none_iff.mpr
            (by rw [markCols_rows_length hm2len]; exact hlen)]; rfl
        rw [hn1, hn2]
      | some b =>
        cases b with
        | false =>
          have hall : ∀ c ∈ cats,
              c ∈ (markCols df (maskOf df identifier) cats (isoformat t1)).cols ∧
              tsOf c ∈ (markCols df (maskOf df identifier) cats (isoformat t1)).cols := by
            intro c hcin
            constructor
            · rw [markCols_cols_mem]; exact Or.inr (Or.inl hcin)
            · rw [markCols_cols_mem]; exact Or.inr (Or.inr ⟨c, hcin, rfl⟩)
          exact markCols_unmatched_nocreate hm2len hb2 hall x
        | true =>
          have hilt : i < df.rows.length := by
            rw [← hdf1len, ← hm2len]; exact (List.getElem?_eq_some_iff.mp hb2).1
          have hb1 : (maskOf df identifier)[i]? = some true := by
            rcases hv : (maskOf df identifier)[i]? with _ | b1
            · exfalso
              have hge := List.getElem?_eq_none_iff.mp hv
              rw [hm1len] at hge
              omega
            · cases b1 with
              | true => rfl
              | false =>
                exfalso
                have hlow := maskOf_after_mark_unmatched (isoformat t1) hprov hv
                have hcontra := hb2.symm.trans hlow
                simp at hcontra
          by_cases hxc : x ∈ cats
          · rw [markCols_flag_true hm2len hb2 hxc hx,
              markCols_flag_true hm1len hb1 hxc hx]
          · exact markCols_cell_other hm2len hxc hx i

/-- C5 witness: a concrete repeat marking of `Dinner` leaves the flag as
after the first call. -/
theorem C5_witness :
    cellAt (mark_attendance (mark_attendance ⟨["Name"], [nameRow "A"]⟩ "A" ["Dinner"]
      none sampleTime (.ok ())).df "A" ["Dinner"] none sampleTime (.ok ())).df 0 "Dinner"
      = cellAt (mark_attendance ⟨["Name"], [nameRow "A"]⟩ "A" ["Dinner"]
        none sampleTime (.ok ())).df 0 "Dinner" :=
  C5_idempotent ⟨["Name"], [nameRow "A"]⟩ "A" ["Dinner"] none sampleTime sampleTime
    (.ok ()) (.ok ()) (by decide) 0 "Dinner" (by decide)

/-- C7: the claim (and the function's own docstring) say the decoder
returns the payload or `None` without propagating an exception; but on
bytes PIL cannot identify as an image, with OpenCV unavailable (or its
decode failing) and pyzbar installed, `Image.open` is called outside
any `try` and its exception propagates out of `decode_qr_from_bytes`. -/
theorem C7_exception_propagates :
    decode_qr_from_bytes
      ⟨false, false, .ok "", true, .exn "cannot identify image file", [], fun _ => none⟩
      = .exn "cannot identify image file" ∧
    decode_qr_from_bytes
      ⟨true, false, .ok "", true, .exn "cannot identify image file", [], fun _ => none⟩
      = .exn "cannot identify image file" :=
  ⟨rfl, rfl⟩

theorem dropLit_append (p l : List Char) : dropLit p (p ++ l) = some l := by
  induction p with
  | nil => rfl
  | cons c ps ih => simp [dropLit, ih]

theorem hexVal_digitChar {d : Nat} (hd : d < 16) : hexVal (Nat.digitChar d) = some d := by
  interval_cases d <;> decide

theorem scanStr_escChar (c : Char) (l : List Char) :
    scanStr (escChar c ++ l) = Option.map (fun p => (c :: p.1, p.2)) (scanStr l) := by
  by_cases h1 : c = '"'
  · subst h1
    have he : escChar '"' = ['\\', '"'] := by decide
    rw [he, List.cons_append, List.cons_append, List.nil_append]
    conv_lhs => rw [scanStr.eq_def]
    simp +decide
  by_cases h2 : c = '\\'
  · subst h2
    have he : escChar '\\' = ['\\', '\\'] := by decide
    rw [he, List.cons_append, List.cons_append, List.nil_append]
    conv_lhs => rw [scanStr.eq_def]
    simp +decide
  by_cases h3 : c = '\x08'
  · subst h3
    have he : escChar '\x08' = ['\\', 'b'] := by decide
    rw [he, List.cons_append, List.cons_append, List.nil_append]
    conv_lhs => rw [scanStr.eq_def]
    simp +decide
  by_cases h4 : c = '\x0c'
  · subst h4
    have he : escChar '\x0c' = ['\\', 'f'] := by decide
    rw [he, List.cons_append, List.cons_append, List.nil_append]
    conv_lhs => rw [scanStr.eq_def]
    simp +decide
  by_cases h5 : c = '\n'
  · subst h5
    have he : escChar '\n' = ['\\', 'n'] := by decide
    rw [he, List.cons_append, List.cons_append, List.nil_append]
    conv_lhs => rw [scanStr.eq_def]
    simp +decide
  by_cases h6 : c = '\r'
  · subst h6
    have he : escChar '\r' = ['\\', 'r'] := by decide
    rw [he, List.cons_append, List.cons_append, List.nil_append]
    conv_lhs => rw [scanStr.eq_def]
    simp +decide
  by_cases h7 : c = '\t'
  · subst h7
    have he : escChar '\t' = ['\\', 't'] := by decide
    rw [he, List.cons_append, List.cons_append, List.nil_append]
    conv_lhs => rw [scanStr.eq_def]
    simp +decide
  by_cases h8 : c.toNat < 32
  · rw [escChar, if_neg h1, if_neg h2, if_neg h3, if_neg h4, if_neg h5, if_neg h6,
      if_neg h7, if_pos h8]
    have hdiv : c.toNat / 16 < 16 := by omega
    have hmod : c.toNat % 16 < 16 := Nat.mod_lt _ (by norm_num)
    rw [List.cons_append, List.cons_append, List.cons_append, List.cons_append,
      List.cons_append, List.cons_append, List.nil_append]
    conv_lhs => rw [scanStr.eq_def]
    have h00 : hexVal '0' = some 0 := by decide
    have hnum : c.toNat / 16 * 16 + c.toNat % 16 = c.toNat := by omega
    simp +decide [hexVal_digitChar hdiv, hexVal_digitChar hmod, h00, hnum,
      Char.ofNat_toNat]
  · rw [escChar, if_neg h1, if_neg h2, if_neg h3, if_neg h4, if_neg h5, if_neg h6,
      if_neg h7, if_neg h8]
    rw [List.cons_append, List.nil_append]
    conv_lhs => rw [scanStr.eq_def]
    simp [h1, h2]

theorem scanStr_escStr (s l : List Char) :
    scanStr (escStr s ++ '"' :: l) = some (s, l) := by
  induction s with
  | nil =>
    have he : escStr [] = [] := rfl
    rw [he, List.nil_append]
    conv_lhs => rw [scanStr.eq_def]
    simp
  | cons c cs ih =>
    have hcons : escStr (c :: cs) = escChar c ++ escStr cs := rfl
    rw [hcons, List.append_assoc, scanStr_escChar, ih]
    rfl

theorem parsePayload_make_payload (row : PRecord) :
    parsePayload (make_payload row) = some (teamOf row, nameOf row) := by
  have hq : ("\"" : String).data = ['"'] := rfl
  have hd : (make_payload row).data
      = ("\x7b\"team\": " : String).data ++ ('"' :: (escStr (teamOf row).data
        ++ ('"' :: ((", \"name\": " : String).data ++ ('"' :: (escStr (nameOf row).data
        ++ ('"' :: ("\x7d" : String).data))))))) := by
    simp [make_payload, jsonStr, String.data_append, hq, List.append_assoc]
  rw [parsePayload, hd, dropLit_append]
  rw [Option.some_bind]
  rw [show parseJsonStr ('"' :: (escStr (teamOf row).data
      ++ ('"' :: ((", \"name\": " : String).data ++ ('"' :: (escStr (nameOf row).data
      ++ ('"' :: ("\x7d" : String).data))))))) = some ((teamOf row).data,
        (", \"name\": " : String).data ++ ('"' :: (escStr (nameOf row).data
        ++ ('"' :: ("\x7d" : String).data)))) from by
    rw [parseJsonStr]
    exact scanStr_escStr _ _]
  rw [Option.some_bind, dropLit_append, Option.some_bind]
  rw [show parseJsonStr ('"' :: (escStr (nameOf row).data
      ++ ('"' :: ("\x7d" : String).data)))
      = some ((nameOf row).data, ("\x7d" : String).data) from by
    rw [parseJsonStr]
    exact scanStr_escStr _ _]
  rw [Option.some_bind, if_pos rfl]

/-- C8: composing `make_payload` with a barcode render/decode pair that
returns the rendered payload unchanged (the external codec, assumed
faithful), the decoded string parses back to exactly the `(team, name)`
pair the payload was built from. -/
theorem C8_roundtrip (Img : Type) (render : String → Img) (dec : Img → Option String)
    (row : PRecord)
    (hcodec : dec (render (make_payload row)) = some (make_payload row)) :
    (dec (render (make_payload row))).bind parsePayload
      = some (teamOf row, nameOf row) := by
  rw [hcodec, Option.some_bind]
  exact parsePayload_make_payload row

/-- C8 witness: the concrete record with team `T1` and name `Alice`
round-trips through an identity codec. -/
theorem C8_witness :
    (some (make_payload (fun k => if k = "Name" then some "Alice"
        else if k = "Team Name" then some "T1" else none)) : Option String).bind
      parsePayload = some ("T1", "Alice") := by
  have h := C8_roundtrip String (fun s => s) some
    (fun k => if k = "Name" then some "Alice"
      else if k = "Team Name" then some "T1" else none) rfl
  exact h.trans (by decide)


end QRScanner
